import Mathlib

/-!
Verification of `nextcord-ext-help_commands` (file
`nextcord/ext/help_commands/paginated.py`): a paginated help command built
on the `nextcord` command framework and the optional `nextcord-ext-menus`
add-on.  The Python classes `HelpPageSource`, `HelpButtonMenuPages` and
`PaginatedHelpCommand` are embedded as pure Lean functions over an explicit
data model of the framework objects they consume (commands, cogs, contexts,
interactions, embeds).
-/

namespace NextcordHelp

/-- A chat command's metadata, as supplied by the host framework
(`commands.core.Command` / `commands.Group`).  `isGroup` models
`isinstance(c, commands.Group)`; `subcommands` models `group.commands`
(only meaningful when `isGroup` is true).  `short_doc` is `none` when the
command has no documentation at all. -/
inductive Command : Type where
  | mk : (name : String) → (qualified_name : String) → (signature : String) →
      (short_doc : Option String) → (help : String) → (isGroup : Bool) →
      (subcommands : List Command) → Command

def Command.name : Command → String
  | .mk n _ _ _ _ _ _ => n

def Command.qualified_name : Command → String
  | .mk _ q _ _ _ _ _ => q

def Command.signature : Command → String
  | .mk _ _ s _ _ _ _ => s

def Command.short_doc : Command → Option String
  | .mk _ _ _ d _ _ _ => d

def Command.help : Command → String
  | .mk _ _ _ _ h _ _ => h

def Command.isGroup : Command → Bool
  | .mk _ _ _ _ _ g _ => g

def Command.subcommands : Command → List Command
  | .mk _ _ _ _ _ _ cs => cs

/-- A cog (named grouping of commands) of the host framework; `commands`
models `cog.get_commands()`. -/
structure Cog where
  qualified_name : String
  description : String
  commands : List Command

/-- The invocation context of the help command; `author` is the invoking
user (identified by id) and ` clean_prefix` the display prefix. -/
structure Context where
  clean_prefix : String
  author : Nat

/-- A button interaction, carrying the interacting user's id. -/
structure Interaction where
  user : Nat

/-- One field of a Discord embed, as appended by `Embed.add_field`. -/
structure EmbedField where
  name : String
  value : String
  inline : Bool
deriving DecidableEq, Repr

/-- A Discord embed as far as this code observes it: title, colour,
optional description, ordered field list, optional footer text. -/
structure Embed where
  title : String
  colour : Nat
  description : Option String
  fields : List EmbedField
  footer : Option String
deriving DecidableEq, Repr

/-- `nextcord.Embed(title=t, colour=c)`: fresh embed with no description,
fields or footer. -/
def Embed.new (title : String) (colour : Nat) : Embed :=
  ⟨title, colour, none, [], none⟩

/-- `embed.add_field(name=n, value=v, inline=i)` appends one field. -/
def Embed.add_field (e : Embed) (name value : String) (inline : Bool) : Embed :=
  { e with fields := e.fields ++ [⟨name, value, inline⟩] }

/-- `embed.set_footer(text=t)`. -/
def Embed.set_footer (e : Embed) (text : String) : Embed :=
  { e with footer := some text }

/-- `nextcord.Colour.blurple()`, the value of `PaginatedHelpCommand.COLOUR`. -/
def COLOUR : Nat := 0x5865F2

/-- Stable insertion of a command into a name-sorted list (helper for the
framework's `sorted(commands, key=lambda c: c.name)`). -/
def insertByName (c : Command) : List Command → List Command
  | [] => [c]
  | d :: ds => if c.name ≤ d.name then c :: d :: ds else d :: insertByName c ds

/-- Stable sort of commands by `name`, modelling Python's `sorted` with
`key=lambda c: c.name` as used by the framework's `filter_commands`. -/
def sortByName : List Command → List Command
  | [] => []
  | c :: cs => insertByName c (sortByName cs)

/-- Models the host framework's `HelpCommand.filter_commands(commands,
sort=...)`: keeps the commands passing the framework's permission checks
(abstracted as the predicate `keep`) and, when `sort` is true, sorts the
survivors by command name. -/
def filter_commands (keep : Command → Bool) (sort : Bool) (cmds : List Command) :
    List Command :=
  let fs := cmds.filter keep
  if sort then sortByName fs else fs

/-- Models `nextcord-ext-menus`' `ListPageSource` state as instantiated by
`HelpPageSource.__init__`, which fixes `per_page=2` over the given list of
`(name, value)` pairs. -/
structure HelpPageSource where
  data : List (String × String)

/-- The fixed page size chosen by `HelpPageSource.__init__` (`per_page=2`). -/
def PER_PAGE : Nat := 2

/-- Models `ListPageSource.get_max_pages` of the menus add-on:
`pages, left_over = divmod(len(entries), per_page); if left_over: pages += 1`. -/
def HelpPageSource.get_max_pages (s : HelpPageSource) : Nat :=
  let pages := s.data.length / PER_PAGE
  let left_over := s.data.length % PER_PAGE
  if left_over ≠ 0 then pages + 1 else pages

/-- Models `ListPageSource.get_page` of the menus add-on for `per_page > 1`:
`entries[page_number * per_page : (page_number + 1) * per_page]`. -/
def HelpPageSource.get_page (s : HelpPageSource) (page_number : Nat) :
    List (String × String) :=
  (s.data.drop (page_number * PER_PAGE)).take PER_PAGE

/-- The state of `PaginatedHelpCommand` read by its methods: the invocation
`context` and `invoked_with` string provided by the framework base class. -/
structure PaginatedHelpCommand where
  context : Context
  invoked_with : String

/-- The error raised when the menus add-on is missing.  Modelled from the
spec: `errors.py` (defining `MissingDependencyError`) is not under `src/`;
per the spec the error names the class and the missing dependency, which
are exactly the arguments passed at the raise site in
`PaginatedHelpCommand.__init__`. -/
structure MissingDependencyError where
  class_name : String
  dependency : String
  extra : String
deriving DecidableEq, Repr

/-- `PaginatedHelpCommand.__init__`: raises `MissingDependencyError(
self.__class__.__name__, "nextcord-ext-menus", "menus")` when `HAS_MENUS`
is false, otherwise constructs normally. -/
def PaginatedHelpCommand.init (has_menus : Bool) : Except MissingDependencyError Unit :=
  if ¬ has_menus then
    Except.error ⟨"PaginatedHelpCommand", "nextcord-ext-menus", "menus"⟩
  else
    Except.ok ()

/-- `PaginatedHelpCommand.get_command_signature`:
`f"{self.context.clean_prefix}{command.qualified_name} {command.signature}"`. -/
def PaginatedHelpCommand.get_command_signature (self : PaginatedHelpCommand)
    (command : Command) : String :=
  Context.clean_prefix self.context ++ command.qualified_name ++ " " ++
    command.signature

/-- `HelpPageSource.format_page`: builds the embed for the current page from
the given `entries`, reading the prefix and `invoked_with` from the help
command, and footing it with the page number taken from `menu.current_page`
and `self.get_max_pages()`. -/
def HelpPageSource.format_page (s : HelpPageSource) (hc : PaginatedHelpCommand)
    (current_page : Nat) (entries : List (String × String)) : Embed :=
  let pfx := Context.clean_prefix hc.context
  let iw := hc.invoked_with
  let embed := Embed.new "Bot Commands" COLOUR
  let descr :=
    "Use \"" ++ pfx ++ iw ++ " command\" for more info on a command.\n" ++
    "Use \"" ++ pfx ++ iw ++ " category\" for more info on a category."
  let embed := { embed with description := some descr }
  let embed := entries.foldl (fun e entry => e.add_field entry.1 entry.2 true) embed
  embed.set_footer ("Page " ++ toString (current_page + 1) ++ "/" ++
    toString s.get_max_pages)

/-- The state of `HelpButtonMenuPages` as built by `send_bot_help`:
the stored context `_ctx`, the page source, and the
`disable_buttons_after` keyword forwarded to the menus base class. -/
structure HelpButtonMenuPages where
  _ctx : Context
  source : HelpPageSource
  disable_buttons_after : Bool

/-- `HelpButtonMenuPages.interaction_check`: `self._ctx.author ==
interaction.user`. -/
def HelpButtonMenuPages.interaction_check (self : HelpButtonMenuPages)
    (interaction : Interaction) : Bool :=
  self._ctx.author == interaction.user

/-- The loop body of `send_bot_help` building `embed_fields`: for each
`(cog, commands)` item of the mapping, filter-and-sort the commands, skip
the cog when nothing survives, otherwise append one `(name, value)` pair. -/
def botHelpStep (pfx : String) (keep : Command → Bool)
    (acc : List (String × String)) (item : Option Cog × List Command) :
    List (String × String) :=
  let name := match item.1 with
    | none => "No Category"
    | some cog => cog.qualified_name
  let filtered := filter_commands keep true item.2
  if filtered.isEmpty then acc
  else
    let value := String.intercalate " "
      (filtered.map (fun c => "`" ++ pfx ++ c.name ++ "`"))
    let value := match item.1 with
      | some cog => if cog.description ≠ "" then cog.description ++ "\n" ++ value
          else value
      | none => value
    acc ++ [(name, value)]

/-- The `embed_fields` list built by `PaginatedHelpCommand.send_bot_help`
from the cog-to-commands mapping (a `for` loop appending into a list). -/
def PaginatedHelpCommand.bot_help_fields (self : PaginatedHelpCommand)
    (keep : Command → Bool) (mapping : List (Option Cog × List Command)) :
    List (String × String) :=
  mapping.foldl (botHelpStep ( Context.clean_prefix self.context) keep) []

/-- `PaginatedHelpCommand.send_bot_help`: builds the field list and starts a
`HelpButtonMenuPages(ctx=self.context, source=HelpPageSource(self,
embed_fields), disable_buttons_after=True)`; the started menu is the
observable result. -/
def PaginatedHelpCommand.send_bot_help (self : PaginatedHelpCommand)
    (keep : Command → Bool) (mapping : List (Option Cog × List Command)) :
    HelpButtonMenuPages :=
  ⟨self.context, ⟨self.bot_help_fields keep mapping⟩, true⟩

/-- Python's `command.short_doc or "..."`: the placeholder replaces a
missing (`None`) or empty short doc. -/
def doc_or_placeholder (d : Option String) : String :=
  match d with
  | none => "..."
  | some s => if s = "" then "..." else s

/-- `PaginatedHelpCommand.send_cog_help`: the embed sent for a cog's help
page. -/
def PaginatedHelpCommand.send_cog_help (self : PaginatedHelpCommand)
    (keep : Command → Bool) (cog : Cog) : Embed :=
  let embed := Embed.new (cog.qualified_name ++ " Commands") COLOUR
  let embed := if cog.description ≠ "" then
      { embed with description := some cog.description }
    else embed
  let filtered := filter_commands keep true cog.commands
  let embed := filtered.foldl (fun e c =>
    e.add_field (self.get_command_signature c)
      (doc_or_placeholder c.short_doc) false) embed
  embed.set_footer ("Use " ++ Context.clean_prefix self.context ++
    "help [command] for more info on a command.")

/-- `PaginatedHelpCommand.send_group_help`: the embed sent for a group's
(or, via the alias, a plain command's) help page. -/
def PaginatedHelpCommand.send_group_help (self : PaginatedHelpCommand)
    (keep : Command → Bool) (group : Command) : Embed :=
  let embed := Embed.new group.qualified_name COLOUR
  let embed := if group.help ≠ "" then
      { embed with description := some group.help }
    else embed
  if group.isGroup then
    let filtered := filter_commands keep true group.subcommands
    filtered.foldl (fun e c =>
      e.add_field (self.get_command_signature c)
        (doc_or_placeholder c.short_doc) false) embed
  else embed

/-- `send_command_help = send_group_help`: the class-level alias. -/
def PaginatedHelpCommand.send_command_help : PaginatedHelpCommand →
    (Command → Bool) → Command → Embed :=
  PaginatedHelpCommand.send_group_help

/-- The field list of `send_bot_help` as the spec describes it: one
`(name, value)` pair per mapping item whose filtered command list is
non-empty, in mapping order; the name is the cog's qualified name, or
"No Category" for the `None` cog; the value joins the sorted filtered
commands, each rendered as the backticked prefix-plus-name, with an en
space, and is prefixed by the cog's description and a newline when the cog
is present with a non-empty description. -/
def bot_help_fields_spec (pfx : String) (keep : Command → Bool)
    (mapping : List (Option Cog × List Command)) : List (String × String) :=
  mapping.filterMap (fun item =>
    let filtered := filter_commands keep true item.2
    if filtered.isEmpty then none
    else
      let name := match item.1 with
        | none => "No Category"
        | some cog => cog.qualified_name
      let base := String.intercalate " "
        (filtered.map (fun c => "`" ++ pfx ++ c.name ++ "`"))
      let value := match item.1 with
        | some cog => if cog.description ≠ "" then cog.description ++ "\n" ++ base
            else base
        | none => base
      some (name, value))

/-- The five methods the framework's help-command extension point expects,
at the types of this embedding. -/
structure HelpCommandInterface where
  send_bot_help : PaginatedHelpCommand → (Command → Bool) →
    List (Option Cog × List Command) → HelpButtonMenuPages
  send_cog_help : PaginatedHelpCommand → (Command → Bool) → Cog → Embed
  send_group_help : PaginatedHelpCommand → (Command → Bool) → Command → Embed
  send_command_help : PaginatedHelpCommand → (Command → Bool) → Command → Embed
  get_command_signature : PaginatedHelpCommand → Command → String

/-- `PaginatedHelpCommand`'s bindings for the extension point's methods. -/
def paginated_help_interface : HelpCommandInterface :=
  ⟨PaginatedHelpCommand.send_bot_help, PaginatedHelpCommand.send_cog_help,
   PaginatedHelpCommand.send_group_help, PaginatedHelpCommand.send_command_help,
   PaginatedHelpCommand.get_command_signature⟩

/-- One step of the `send_bot_help` loop contributes what the spec-side
description assigns to that single mapping item. -/
theorem botHelpStep_eq (pfx : String) (keep : Command → Bool)
    (acc : List (String × String)) (item : Option Cog × List Command) :
    botHelpStep pfx keep acc item = acc ++ bot_help_fields_spec pfx keep [item] := by
  rcases item with ⟨co, cmds⟩
  cases co <;>
    simp only [botHelpStep, bot_help_fields_spec, List.filterMap_cons,
      List.filterMap_nil] <;>
    split <;> simp_all

/-- The `send_bot_help` loop, run from any accumulator, appends the
spec-side field list. -/
theorem foldl_botHelpStep (pfx : String) (keep : Command → Bool) :
    ∀ (l : List (Option Cog × List Command)) (acc : List (String × String)),
      l.foldl (botHelpStep pfx keep) acc = acc ++ bot_help_fields_spec pfx keep l := by
  intro l
  induction l with
  | nil => intro acc; simp [bot_help_fields_spec]
  | cons x xs ih =>
    intro acc
    rw [List.foldl_cons, ih, botHelpStep_eq]
    simp only [bot_help_fields_spec, List.filterMap_cons, List.filterMap_nil]
    split <;> simp_all

/-- Folding `add_field` over a list of `(name, value)` pairs appends the
corresponding fields and changes nothing else of the embed. -/
theorem foldl_add_field_pair (b : Bool) :
    ∀ (l : List (String × String)) (e : Embed),
      l.foldl (fun e x => e.add_field x.1 x.2 b) e =
        { e with fields := e.fields ++ l.map (fun x => ⟨x.1, x.2, b⟩) } := by
  intro l
  induction l with
  | nil => intro e; simp
  | cons x xs ih =>
    intro e
    rw [List.foldl_cons, ih]
    simp [Embed.add_field]

/-- Folding `add_field` over filtered commands appends one field per
command, with the command signature as name and the coalesced short doc as
value, and changes nothing else of the embed. -/
theorem foldl_add_field_cmd (self : PaginatedHelpCommand) :
    ∀ (l : List Command) (e : Embed),
      l.foldl (fun e c => e.add_field (self.get_command_signature c)
          (doc_or_placeholder c.short_doc) false) e =
        { e with fields := e.fields ++ l.map (fun c =>
            ⟨self.get_command_signature c, doc_or_placeholder c.short_doc,
              false⟩) } := by
  intro l
  induction l with
  | nil => intro e; simp
  | cons c cs ih =>
    intro e
    rw [List.foldl_cons, ih]
    simp [Embed.add_field]

/-- C1: constructing `PaginatedHelpCommand` raises `MissingDependencyError`
exactly when the menus add-on is absent (`HAS_MENUS` false); the raise
happens in `__init__` and the error carries the class name
"PaginatedHelpCommand" and the missing dependency "nextcord-ext-menus";
with the add-on installed construction succeeds. -/
theorem init_missing_dependency :
    PaginatedHelpCommand.init true = Except.ok () ∧
    PaginatedHelpCommand.init false =
      Except.error ⟨"PaginatedHelpCommand", "nextcord-ext-menus", "menus"⟩ ∧
    ∀ has_menus : Bool,
      (∃ e, PaginatedHelpCommand.init has_menus = Except.error e) ↔
        has_menus = false := by
  refine ⟨rfl, rfl, fun b => ?_⟩
  cases b <;> simp [PaginatedHelpCommand.init]

/-- Witness for C1 at the concrete inputs `false` and `true`. -/
theorem init_missing_dependency_witness :
    PaginatedHelpCommand.init false =
      Except.error ⟨"PaginatedHelpCommand", "nextcord-ext-menus", "menus"⟩ ∧
    PaginatedHelpCommand.init true = Except.ok () :=
  ⟨init_missing_dependency.2.1, init_missing_dependency.1⟩

/-- C2: `HelpButtonMenuPages.interaction_check` returns true exactly when
the interacting user is the author of the stored invocation context. -/
theorem interaction_check_iff_author (m : HelpButtonMenuPages)
    (i : Interaction) :
    m.interaction_check i = true ↔ i.user = m._ctx.author := by
  unfold HelpButtonMenuPages.interaction_check
  rw [beq_iff_eq]
  exact eq_comm

/-- Witness for C2: the invoker (id 7) passes the check, another user
(id 8) does not. -/
theorem interaction_check_iff_author_witness :
    HelpButtonMenuPages.interaction_check ⟨⟨"!", 7⟩, ⟨[]⟩, true⟩ ⟨7⟩ = true ∧
    ¬ HelpButtonMenuPages.interaction_check ⟨⟨"!", 7⟩, ⟨[]⟩, true⟩ ⟨8⟩ = true :=
  ⟨(interaction_check_iff_author ⟨⟨"!", 7⟩, ⟨[]⟩, true⟩ ⟨7⟩).mpr rfl,
   fun h => by
    have := (interaction_check_iff_author ⟨⟨"!", 7⟩, ⟨[]⟩, true⟩ ⟨8⟩).mp h
    simp at this⟩

/-- C3: the field list handed by `send_bot_help` to the page source is
exactly the spec-described list: in mapping order, one pair per cog with a
non-empty filtered command list, named by the cog's qualified name (or
"No Category"), valued by the en-space join of the backticked
prefix-plus-name of the sorted filtered commands, description-prefixed
when the cog has one. -/
theorem send_bot_help_fields_match_spec (self : PaginatedHelpCommand)
    (keep : Command → Bool) (mapping : List (Option Cog × List Command)) :
    (self.send_bot_help keep mapping).source.data =
      bot_help_fields_spec ( Context.clean_prefix self.context) keep mapping := by
  simp [PaginatedHelpCommand.send_bot_help, PaginatedHelpCommand.bot_help_fields,
    foldl_botHelpStep]

/-- Witness for C3 on a one-cog mapping. -/
theorem send_bot_help_fields_match_spec_witness :
    (PaginatedHelpCommand.send_bot_help ⟨⟨"!", 1⟩, "help"⟩ (fun _ => true)
        [(none, [Command.mk "ping" "ping" "" none "" false []])]).source.data =
      bot_help_fields_spec "!" (fun _ => true)
        [(none, [Command.mk "ping" "ping" "" none "" false []])] :=
  send_bot_help_fields_match_spec ⟨⟨"!", 1⟩, "help"⟩ (fun _ => true)
    [(none, [Command.mk "ping" "ping" "" none "" false []])]

/-- C4: in `send_cog_help` and `send_group_help` every listed command
yields one field whose value is the command's short doc when that is
present and non-empty, and the placeholder "..." when it is missing or
empty. -/
theorem cog_and_group_short_doc (self : PaginatedHelpCommand)
    (keep : Command → Bool) (cog : Cog) (group : Command) :
    (self.send_cog_help keep cog).fields =
      (filter_commands keep true cog.commands).map (fun c =>
        ⟨self.get_command_signature c, doc_or_placeholder c.short_doc,
          false⟩) ∧
    (group.isGroup = true →
      (self.send_group_help keep group).fields =
        (filter_commands keep true group.subcommands).map (fun c =>
          ⟨self.get_command_signature c, doc_or_placeholder c.short_doc,
            false⟩)) ∧
    doc_or_placeholder none = "..." ∧
    doc_or_placeholder (some "") = "..." ∧
    (∀ d : String, d ≠ "" → doc_or_placeholder (some d) = d) := by
  refine ⟨?_, fun hg => ?_, rfl, rfl, fun d hd => ?_⟩
  · simp only [PaginatedHelpCommand.send_cog_help]
    rw [foldl_add_field_cmd]
    simp only [Embed.set_footer, Embed.new]
    split <;> simp
  · simp only [PaginatedHelpCommand.send_group_help, hg, if_true]
    rw [foldl_add_field_cmd]
    simp only [Embed.new]
    split <;> simp
  · simp [doc_or_placeholder, hd]

/-- Witness for C4: a group with one undocumented subcommand gets the
placeholder field, and a non-empty short doc passes through unchanged. -/
theorem cog_and_group_short_doc_witness :
    (PaginatedHelpCommand.send_group_help ⟨⟨"!", 1⟩, "help"⟩ (fun _ => true)
        (Command.mk "g" "g" "" none "h" true
          [Command.mk "sub" "g sub" "" none "" false []])).fields =
      [⟨"!g sub ", "...", false⟩] ∧
    doc_or_placeholder (some "hi") = "hi" := by
  have h := cog_and_group_short_doc ⟨⟨"!", 1⟩, "help"⟩ (fun _ => true)
    ⟨"X", "", []⟩ (Command.mk "g" "g" "" none "h" true
      [Command.mk "sub" "g sub" "" none "" false []])
  exact ⟨by rw [h.2.1 rfl]; rfl, h.2.2.2.2 "hi" (by decide)⟩

/-- C5: with `per_page=2`, the page count is the ceiling of half the data
length, every non-final page has exactly 2 entries, and the final page has
1 or 2. -/
theorem page_size_invariant (s : HelpPageSource) (i : Nat) :
    s.get_max_pages = (s.data.length + 1) / 2 ∧
    (i < s.get_max_pages →
      (i + 1 < s.get_max_pages → (s.get_page i).length = 2) ∧
      ((s.get_page i).length = 1 ∨ (s.get_page i).length = 2)) := by
  have hmax : s.get_max_pages = (s.data.length + 1) / 2 := by
    simp only [HelpPageSource.get_max_pages, PER_PAGE]
    split <;> omega
  have hlen : (s.get_page i).length =
      min PER_PAGE (s.data.length - i * PER_PAGE) := by
    unfold HelpPageSource.get_page
    simp
  refine ⟨hmax, fun hi => ⟨fun hi1 => ?_, ?_⟩⟩
  · rw [hmax] at hi1
    rw [hlen]
    unfold PER_PAGE
    omega
  · rw [hmax] at hi
    rw [hlen]
    unfold PER_PAGE
    omega

/-- Witness for C5: four entries make two full pages; three entries leave a
final page of one entry. -/
theorem page_size_invariant_witness :
    ((HelpPageSource.mk [("a", "1"), ("b", "2"), ("c", "3"), ("d", "4")]).get_page
        0).length = 2 ∧
    (((HelpPageSource.mk [("a", "1"), ("b", "2"), ("c", "3")]).get_page 1).length = 1 ∨
      ((HelpPageSource.mk [("a", "1"), ("b", "2"), ("c", "3")]).get_page 1).length = 2) :=
  ⟨((page_size_invariant ⟨[("a", "1"), ("b", "2"), ("c", "3"), ("d", "4")]⟩ 0).2
      (by decide)).1 (by decide),
   ((page_size_invariant ⟨[("a", "1"), ("b", "2"), ("c", "3")]⟩ 1).2 (by decide)).2⟩

/-- C6: `format_page` returns one embed titled "Bot Commands" whose fields
are exactly the page's entries, in order, name from the first component and
value from the second. -/
theorem format_page_embed (s : HelpPageSource) (hc : PaginatedHelpCommand)
    (current_page : Nat) (entries : List (String × String)) :
    (s.format_page hc current_page entries).title = "Bot Commands" ∧
    (s.format_page hc current_page entries).fields =
      entries.map (fun x => ⟨x.1, x.2, true⟩) := by
  simp only [HelpPageSource.format_page]
  rw [foldl_add_field_pair]
  simp [Embed.set_footer, Embed.new]

/-- Witness for C6 on a concrete page. -/
theorem format_page_embed_witness :
    ((HelpPageSource.mk [("a", "1"), ("b", "2")]).format_page
        ⟨⟨"!", 1⟩, "help"⟩ 0 [("a", "1"), ("b", "2")]).fields =
      [("a", "1"), ("b", "2")].map (fun x => ⟨x.1, x.2, true⟩) :=
  (format_page_embed ⟨[("a", "1"), ("b", "2")]⟩ ⟨⟨"!", 1⟩, "help"⟩ 0
    [("a", "1"), ("b", "2")]).2

/-- C7: `PaginatedHelpCommand` binds all five methods the framework's
help-command extension point requires. -/
theorem provides_required_methods :
    paginated_help_interface.send_bot_help = PaginatedHelpCommand.send_bot_help ∧
    paginated_help_interface.send_cog_help = PaginatedHelpCommand.send_cog_help ∧
    paginated_help_interface.send_group_help =
      PaginatedHelpCommand.send_group_help ∧
    paginated_help_interface.send_command_help =
      PaginatedHelpCommand.send_command_help ∧
    paginated_help_interface.get_command_signature =
      PaginatedHelpCommand.get_command_signature :=
  ⟨rfl, rfl, rfl, rfl, rfl⟩

/-- C8: `send_command_help` is the very function `send_group_help`; on a
non-group command the subcommand branch is skipped, so the embed has the
command's qualified name as title, its (non-empty) help text as
description, and no fields. -/
theorem send_command_help_aliases_group (self : PaginatedHelpCommand)
    (keep : Command → Bool) (c : Command) :
    PaginatedHelpCommand.send_command_help = PaginatedHelpCommand.send_group_help ∧
    (c.isGroup = false →
      (self.send_command_help keep c).title = c.qualified_name ∧
      (self.send_command_help keep c).fields = [] ∧
      (c.help ≠ "" →
        (self.send_command_help keep c).description = some c.help)) := by
  refine ⟨rfl, fun hng => ?_⟩
  simp only [PaginatedHelpCommand.send_command_help,
    PaginatedHelpCommand.send_group_help, hng, Bool.false_eq_true, if_false,
    Embed.new]
  refine ⟨?_, ?_, fun hh => ?_⟩
  · split <;> rfl
  · split <;> rfl
  · rw [if_pos hh]

/-- Witness for C8: a plain documented command yields a field-less embed
carrying its help text. -/
theorem send_command_help_aliases_group_witness :
    (PaginatedHelpCommand.send_command_help ⟨⟨"!", 1⟩, "help"⟩ (fun _ => true)
        (Command.mk "foo" "foo" "<x>" none "does things" false [])).fields = [] ∧
    (PaginatedHelpCommand.send_command_help ⟨⟨"!", 1⟩, "help"⟩ (fun _ => true)
        (Command.mk "foo" "foo" "<x>" none "does things" false [])).description =
      some "does things" := by
  have h := (send_command_help_aliases_group ⟨⟨"!", 1⟩, "help"⟩ (fun _ => true)
    (Command.mk "foo" "foo" "<x>" none "does things" false [])).2 rfl
  exact ⟨h.2.1, h.2.2 (by decide)⟩

/-- C9: `get_command_signature` is the concatenation of the clean prefix,
the qualified name, a space, and the signature. -/
theorem get_command_signature_concat (self : PaginatedHelpCommand)
    (c : Command) :
    self.get_command_signature c =
      Context.clean_prefix self.context ++ c.qualified_name ++ " " ++
        c.signature :=
  rfl

/-- Witness for C9 on a concrete command. -/
theorem get_command_signature_concat_witness :
    PaginatedHelpCommand.get_command_signature ⟨⟨"!", 1⟩, "help"⟩
        (Command.mk "foo" "foo bar" "<x> [y]" none "" false []) =
      "!" ++ "foo bar" ++ " " ++ "<x> [y]" :=
  get_command_signature_concat ⟨⟨"!", 1⟩, "help"⟩
    (Command.mk "foo" "foo bar" "<x> [y]" none "" false [])

/-- C10: the embed's footer is exactly "Page {k+1}/{N}" for the menu's
zero-based current page k and the source's max page count N, and for any
in-range page the displayed number lies between 1 and N. -/
theorem format_page_footer (s : HelpPageSource) (hc : PaginatedHelpCommand)
    (current_page : Nat) (entries : List (String × String)) :
    (s.format_page hc current_page entries).footer =
      some ("Page " ++ toString (current_page + 1) ++ "/" ++
        toString s.get_max_pages) ∧
    (current_page < s.get_max_pages →
      1 ≤ current_page + 1 ∧ current_page + 1 ≤ s.get_max_pages) := by
  constructor
  · simp only [HelpPageSource.format_page]
    rw [foldl_add_field_pair]
    simp [Embed.set_footer]
  · omega

/-- Witness for C10: one page of one entry shows "Page 1/1". -/
theorem format_page_footer_witness :
    ((HelpPageSource.mk [("a", "1")]).format_page ⟨⟨"!", 1⟩, "help"⟩ 0
        [("a", "1")]).footer =
      some ("Page " ++ toString (0 + 1) ++ "/" ++
        toString (HelpPageSource.mk [("a", "1")]).get_max_pages) ∧
    1 ≤ 0 + 1 ∧ 0 + 1 ≤ (HelpPageSource.mk [("a", "1")]).get_max_pages :=
  ⟨(format_page_footer ⟨[("a", "1")]⟩ ⟨⟨"!", 1⟩, "help"⟩ 0 [("a", "1")]).1,
   (format_page_footer ⟨[("a", "1")]⟩ ⟨⟨"!", 1⟩, "help"⟩ 0 [("a", "1")]).2
     (by decide)⟩

end NextcordHelp
